import Mathlib

/-!
Verification of the OADA/generator-oada scaffolding generator.

The generator (src/app/index.js and the unnamed variant src/unnamed/part_000)
is a yeoman generator: it resolves defaults from git config, npm config and an
existing package.json, prompts the operator, derives names, provisions a Travis
npm secret, materializes template files and installs dependencies.

This file shallowly embeds the relevant parts of both source files:
strings are `String`/`List Char`, the in-memory `conf` object is a structure,
JS truthiness of strings ("" and undefined are falsy) is modelled explicitly,
fallible steps return `Option`/`Except`, and the filesystem and the
generator-local config store are finite maps `String → Option _`.
-/

set_option autoImplicit false

namespace GenOada

/-! ## JS truthiness helpers

`jsOr a b` models the JS expression `a || b` where `a : Option String` stands
for a possibly-`undefined` string value: `undefined` and `""` are falsy. -/

def jsOr (a b : Option String) : Option String :=
  match a with
  | some s => if s = "" then b else some s
  | none => b

/-- `jsOrS a b` models `a || b` where the fallback `b` is a definite string. -/
def jsOrS (a : Option String) (b : String) : String :=
  match a with
  | some s => if s = "" then b else s
  | none => b

/-! ## Name derivations (src/app/index.js lines 214-221, part_000 lines 168-175)

`context.packageName` is `ans.libName` with the anchored pattern `^node-`
replaced by the empty string, then the anchored pattern `[.-]?js$` replaced by
the empty string (both single, non-global replaces).  `context.varName` is
`context.packageName` with the global pattern `[-_.](.)` replaced by the
upper-cased capture. -/

/-- The characters of the literal prefix `node-`. -/
def nodeDash : List Char := ['n', 'o', 'd', 'e', '-']

/-- The replace of the anchored pattern `^node-` by the empty string:
drop a single leading `node-` when present. -/
def stripNode (cs : List Char) : List Char :=
  if cs.take 5 = nodeDash then cs.drop 5 else cs

/-- The replace of the anchored pattern `[.-]?js$` by the empty string:
remove one trailing `js` together with an
optional single preceding `.` or `-`.  The regex is anchored at the end and
non-global, and the separator is optional, so a bare trailing `js` is also
removed. -/
def stripJs (cs : List Char) : List Char :=
  if cs.reverse.take 3 = ['s', 'j', '.'] ∨ cs.reverse.take 3 = ['s', 'j', '-'] then
    (cs.reverse.drop 3).reverse
  else if cs.reverse.take 2 = ['s', 'j'] then
    (cs.reverse.drop 2).reverse
  else cs

/-- `packageName` derivation on the character list of `libName`. -/
def packageNameL (cs : List Char) : List Char := stripJs (stripNode cs)

/-- `context.packageName` as derived from `ans.libName`. -/
def packageName (libName : String) : String := String.mk (packageNameL libName.data)

/-- The separator class `[-_.]` of the `varName` regex. -/
def isSep (c : Char) : Bool := c = '-' ∨ c = '_' ∨ c = '.'

/-- JS line terminators, which the regex metacharacter `.` (without the `s`
flag) does not match: LF, CR, U+2028 and U+2029. -/
def isLineTerm (c : Char) : Bool :=
  c = '\n' ∨ c = '\r' ∨ c.toNat = 0x2028 ∨ c.toNat = 0x2029

/-- The global replace of `[-_.](.)` by the upper-cased capture: a
left-to-right scan; a separator followed by a character the JS dot can match
(anything but a line terminator) is removed together with that character,
which is re-emitted through `String.prototype.toUpperCase`, and the scan
resumes after the consumed pair.  A separator with no following character
(at the very end), or followed by a line terminator, does not match and is
emitted unchanged.  `toUpperCase` is the Unicode case map (possibly
multi-character, e.g. for the sharp s), so it is abstracted by the
parameter `up : Char → List Char`; the theorems assume of it only what they
need: the hypothesis `up c = [Char.toUpper c]` is imposed only for
`c.toNat < 128`, where the Unicode map agrees with the ASCII uppercase. -/
def camelCharsWith (up : Char → List Char) : List Char → List Char
  | [] => []
  | [c] => [c]
  | c :: d :: rest =>
    if isSep c && !isLineTerm d then up d ++ camelCharsWith up rest
    else c :: camelCharsWith up (d :: rest)

/-- `context.varName` as derived from `context.packageName`, parametrized by
the uppercase map. -/
def varNameWith (up : Char → List Char) (pkg : String) : String :=
  String.mk (camelCharsWith up pkg.data)

/-- The ASCII fragment of the uppercase map: on inputs below U+0080 the JS
Unicode `toUpperCase` agrees with the ASCII uppercase and is single-valued. -/
def asciiUp (c : Char) : List Char := [Char.toUpper c]

example : packageName "node-oada" = "oada" := by decide
example : packageName "foo.js" = "foo" := by decide
example : packageName "foo-js" = "foo" := by decide
example : packageName "node-fsjs" = "fs" := by decide
example : varNameWith asciiUp "foo-bar.baz" = "fooBarBaz" := by decide
example : varNameWith asciiUp "foo-" = "foo-" := by decide
example : varNameWith asciiUp "a--b" = "a-b" := by decide
example : varNameWith asciiUp "a-\nb" = "a-\nb" := by decide

/-! ### Lemmas about the name derivations -/

lemma stripNode_append (x : List Char) : stripNode (nodeDash ++ x) = x := by
  have h5 : nodeDash.length = 5 := rfl
  simp [stripNode, List.take_left' h5, List.drop_left' h5]

lemma stripNode_of_take_ne (cs : List Char) (h : cs.take 5 ≠ nodeDash) :
    stripNode cs = cs := by
  simp [stripNode, h]

lemma stripJs_append_dot_js (x : List Char) : stripJs (x ++ ['.', 'j', 's']) = x := by
  have h3 : (['s', 'j', '.'] : List Char).length = 3 := rfl
  have hrev : (x ++ ['.', 'j', 's']).reverse = ['s', 'j', '.'] ++ x.reverse := by
    simp
  simp [stripJs, hrev, List.take_left' h3, List.drop_left' h3]

lemma stripJs_append_dash_js (x : List Char) : stripJs (x ++ ['-', 'j', 's']) = x := by
  have h3 : (['s', 'j', '-'] : List Char).length = 3 := rfl
  have hrev : (x ++ ['-', 'j', 's']).reverse = ['s', 'j', '-'] ++ x.reverse := by
    simp
  simp [stripJs, hrev, List.take_left' h3, List.drop_left' h3]

lemma stripJs_of_not_js (x : List Char) (h : x.reverse.take 2 ≠ ['s', 'j']) :
    stripJs x = x := by
  have htt : x.reverse.take 2 = (x.reverse.take 3).take 2 := by
    rw [List.take_take]
    norm_num
  have h1 : x.reverse.take 3 ≠ ['s', 'j', '.'] := by
    intro he
    apply h
    rw [htt, he]
    decide
  have h2 : x.reverse.take 3 ≠ ['s', 'j', '-'] := by
    intro he
    apply h
    rw [htt, he]
    decide
  simp [stripJs, h1, h2, h]

/-- Claim C1 (amended): the `packageName` derivation strips one leading
`node-` and then one trailing `js` with an *optional* preceding `.` or `-`.
Hence for `<x>.js` and `<x>-js` (when the name does not begin with `node-`)
the result is `<x>`; for `node-<x>` the result is `<x>` further stripped of a
trailing `[.-]?js` when present — in particular `<x>` is returned unchanged
only when `<x>` does not end in `js`. -/
theorem c1_packageName_strips :
    (∀ x : List Char, (x ++ ['.', 'j', 's']).take 5 ≠ nodeDash →
        packageName (String.mk (x ++ ['.', 'j', 's'])) = String.mk x)
  ∧ (∀ x : List Char, (x ++ ['-', 'j', 's']).take 5 ≠ nodeDash →
        packageName (String.mk (x ++ ['-', 'j', 's'])) = String.mk x)
  ∧ (∀ x : List Char, packageName (String.mk (nodeDash ++ x)) = String.mk (stripJs x))
  ∧ (∀ x : List Char, x.reverse.take 2 ≠ ['s', 'j'] → stripJs x = x) := by
  refine ⟨?_, ?_, ?_, ?_⟩
  · intro x h
    show String.mk (packageNameL (x ++ ['.', 'j', 's'])) = String.mk x
    rw [packageNameL, stripNode_of_take_ne _ h, stripJs_append_dot_js]
  · intro x h
    show String.mk (packageNameL (x ++ ['-', 'j', 's'])) = String.mk x
    rw [packageNameL, stripNode_of_take_ne _ h, stripJs_append_dash_js]
  · intro x
    show String.mk (packageNameL (nodeDash ++ x)) = String.mk (stripJs x)
    rw [packageNameL, stripNode_append]
  · exact stripJs_of_not_js

/-- Claim C1 counterexample: for the library name `node-fsjs` (form
`node-<x>` with `<x> = fsjs`, where `<x>` ends in `js`), the derivation does
not return `<x>`: the optional-separator suffix pattern also strips the bare
trailing `js`, yielding `fs`. -/
theorem c1_counterexample :
    packageName "node-fsjs" = "fs" ∧ packageName "node-fsjs" ≠ "fsjs" := by
  decide

/-- Witness for `c1_packageName_strips` at concrete inputs. -/
theorem c1_witness :
    packageName (String.mk (['f', 'o', 'o'] ++ ['.', 'j', 's'])) = String.mk ['f', 'o', 'o']
  ∧ packageName (String.mk (nodeDash ++ ['b', 'a', 'r'])) = String.mk (stripJs ['b', 'a', 'r'])
  ∧ stripJs ['b', 'a', 'r'] = ['b', 'a', 'r'] :=
  ⟨c1_packageName_strips.1 ['f', 'o', 'o'] (by decide),
   c1_packageName_strips.2.2.1 ['b', 'a', 'r'],
   c1_packageName_strips.2.2.2 ['b', 'a', 'r'] (by decide)⟩

lemma camelCharsWith_cons_nonsep (up : Char → List Char) (c : Char)
    (rest : List Char) (h : isSep c = false) (hne : rest ≠ []) :
    camelCharsWith up (c :: rest) = c :: camelCharsWith up rest := by
  cases rest with
  | nil => exact absurd rfl hne
  | cons d rs => simp [camelCharsWith, h]

lemma camelCharsWith_sep_pair (up : Char → List Char) (a : List Char)
    (s d : Char) (b : List Char) (ha : ∀ c ∈ a, isSep c = false)
    (hs : isSep s = true) (hd : isLineTerm d = false) :
    camelCharsWith up (a ++ s :: d :: b)
      = a ++ (up d ++ camelCharsWith up b) := by
  induction a with
  | nil => simp [camelCharsWith, hs, hd]
  | cons c a ih =>
    have hc : isSep c = false := ha c (by simp)
    have ha' : ∀ x ∈ a, isSep x = false := fun x hx => ha x (by simp [hx])
    rw [List.cons_append, camelCharsWith_cons_nonsep up c _ hc (by simp),
      ih ha', List.cons_append]

lemma camelCharsWith_trailing (up : Char → List Char) (a : List Char)
    (s : Char) (ha : ∀ c ∈ a, isSep c = false) :
    camelCharsWith up (a ++ [s]) = a ++ [s] := by
  induction a with
  | nil => simp [camelCharsWith]
  | cons c a ih =>
    have hc : isSep c = false := ha c (by simp)
    have ha' : ∀ x ∈ a, isSep x = false := fun x hx => ha x (by simp [hx])
    rw [List.cons_append, camelCharsWith_cons_nonsep up c _ hc (by simp),
      ih ha']

lemma camelCharsWith_sep_lineterm (up : Char → List Char) (a : List Char)
    (s d : Char) (b : List Char) (ha : ∀ c ∈ a, isSep c = false)
    (hs : isSep s = true) (hd : isLineTerm d = true) :
    camelCharsWith up (a ++ s :: d :: b)
      = a ++ s :: camelCharsWith up (d :: b) := by
  induction a with
  | nil => simp [camelCharsWith, hs, hd]
  | cons c a ih =>
    have hc : isSep c = false := ha c (by simp)
    have ha' : ∀ x ∈ a, isSep x = false := fun x hx => ha x (by simp [hx])
    rw [List.cons_append, camelCharsWith_cons_nonsep up c _ hc (by simp),
      ih ha', List.cons_append]

/-- Claim C2 (amended): the `varName` derivation removes each separator
(`-`, `_` or `.`) that is followed by a character the JS dot can match
(i.e. anything but a line terminator) and upper-cases that character through
the Unicode `toUpperCase` — which on ASCII inputs is the ASCII uppercase, so
`foo-bar.baz` maps to `fooBarBaz`.  A separator that is the last character
of the string, or one followed by a line terminator, does not match
`[-_.](.)` and is left in place.  The uppercase map is abstract (`up`),
constrained only on ASCII, where the program's map is pinned. -/
theorem c2_varName_camelCases :
    (∀ up : Char → List Char,
        (∀ c : Char, c.toNat < 128 → up c = [Char.toUpper c]) →
        varNameWith up "foo-bar.baz" = "fooBarBaz")
  ∧ (∀ (up : Char → List Char) (a : List Char) (s d : Char) (b : List Char),
        (∀ c ∈ a, isSep c = false) → isSep s = true → isLineTerm d = false →
        camelCharsWith up (a ++ s :: d :: b)
          = a ++ (up d ++ camelCharsWith up b))
  ∧ (∀ (up : Char → List Char) (a : List Char) (s : Char),
        (∀ c ∈ a, isSep c = false) → isSep s = true →
        camelCharsWith up (a ++ [s]) = a ++ [s])
  ∧ (∀ (up : Char → List Char) (a : List Char) (s d : Char) (b : List Char),
        (∀ c ∈ a, isSep c = false) → isSep s = true → isLineTerm d = true →
        camelCharsWith up (a ++ s :: d :: b)
          = a ++ s :: camelCharsWith up (d :: b)) := by
  refine ⟨?_, camelCharsWith_sep_pair, ?_, camelCharsWith_sep_lineterm⟩
  · intro up hup
    have hb := hup 'b' (by decide)
    show String.mk (camelCharsWith up "foo-bar.baz".data) = "fooBarBaz"
    rw [show "foo-bar.baz".data
        = ['f', 'o', 'o'] ++ '-' :: 'b' :: (['a', 'r'] ++ '.' :: 'b' :: ['a', 'z'])
      from rfl]
    rw [camelCharsWith_sep_pair up ['f', 'o', 'o'] '-' 'b'
      (['a', 'r'] ++ '.' :: 'b' :: ['a', 'z']) (by decide) (by decide) (by decide)]
    rw [camelCharsWith_sep_pair up ['a', 'r'] '.' 'b' ['a', 'z']
      (by decide) (by decide) (by decide)]
    rw [hb, show camelCharsWith up ['a', 'z'] = ['a', 'z'] from by
      simp [camelCharsWith, isSep]]
    decide
  · intro up a s ha _
    exact camelCharsWith_trailing up a s ha

/-- Claim C2 counterexample: for the string `foo-` whose separator is the
last character, the derivation keeps the trailing separator rather than
removing it: the pattern `[-_.](.)` needs a following character.  On this
input the replacer — and with it the uppercase map — is never invoked, as
the third conjunct shows: the degenerate map that erases every character
yields the same output, so the evaluation does not depend on the Unicode
case map. -/
theorem c2_counterexample :
    varNameWith asciiUp "foo-" = "foo-"
  ∧ varNameWith asciiUp "foo-" ≠ "foo"
  ∧ varNameWith (fun _ => []) "foo-" = "foo-" := by
  decide

/-- Witness for `c2_varName_camelCases` at the ASCII uppercase map and
concrete inputs. -/
theorem c2_witness :
    varNameWith asciiUp "foo-bar.baz" = "fooBarBaz"
  ∧ camelCharsWith asciiUp (['a'] ++ '-' :: 'b' :: [])
      = ['a'] ++ (asciiUp 'b' ++ camelCharsWith asciiUp [])
  ∧ camelCharsWith asciiUp (['a'] ++ ['-']) = ['a'] ++ ['-']
  ∧ camelCharsWith asciiUp (['a'] ++ '-' :: '\n' :: [])
      = ['a'] ++ '-' :: camelCharsWith asciiUp ['\n'] :=
  ⟨c2_varName_camelCases.1 asciiUp (fun c _ => rfl),
   c2_varName_camelCases.2.1 asciiUp ['a'] '-' 'b' []
     (by decide) (by decide) (by decide),
   c2_varName_camelCases.2.2.1 asciiUp ['a'] '-' (by decide) (by decide),
   c2_varName_camelCases.2.2.2 asciiUp ['a'] '-' '\n' []
     (by decide) (by decide) (by decide)⟩

/-! ## The Context Resolver (`initializing`, src/app/index.js lines 31-107,
part_000 lines 30-103)

`this.conf` starts as `\x7b main: 'index.js', version: '0.0.0' \x7d`; the
`dir`, `gitConfig`, `npmConfig` and `packageJson` steps enrich it.  Fields
that may be `undefined` are `Option String`; `main` and `version` always hold
a string. -/

structure Conf where
  name : Option String
  email : Option String
  url : Option String
  npmKey : Option String
  libName : Option String
  libDesc : Option String
  main : String
  version : String
deriving DecidableEq, Repr

/-- `initializing.default`: `this.conf = \x7b main: 'index.js', version: '0.0.0' \x7d`. -/
def initialConf : Conf :=
  { name := none, email := none, url := none, npmKey := none,
    libName := none, libDesc := none, main := "index.js", version := "0.0.0" }

/-- Helper for `matchLastSeg`: `rest` is the reversed path with an optional
trailing slash (`tr`, reversed already) removed; the captured group is the
maximal nonempty run of non-slash characters at the end of the path, which
must be preceded by a slash. -/
def segFrom (rest tr : List Char) : Option String :=
  match rest.takeWhile (fun c => c ≠ '/') with
  | [] => none
  | run@(_ :: _) =>
    if (rest.drop run.length).head? = some '/' then
      some (String.mk (run.reverse ++ tr))
    else none

/-- The match of `destinationPath()` against the pattern
`\/([^\/]+\/?)$` (a slash, then a nonempty run of non-slash characters, then
one optional slash, at the end of the string), returning capture group 1.
The run cannot contain a slash, so the match, when it exists, is against the
last slash of the path (minus an optional trailing slash), which is also the
leftmost valid start position. -/
def matchLastSeg (s : String) : Option String :=
  if s.data.reverse.head? = some '/' then segFrom (s.data.reverse.drop 1) ['/']
  else segFrom s.data.reverse []

/-- `initializing.dir`:
`this.conf.libName = this.destinationPath().match(...)[1] || this.conf.libName`.
When the path does not match, `.match` returns `null` and the index access
throws an (uncaught) TypeError, modelled as `none`. -/
def dirStep (c : Conf) (destPath : String) : Option Conf :=
  match matchLastSeg destPath with
  | none => none
  | some seg => some { c with libName := jsOr (some seg) c.libName }

/-- Outcome of the `git-config` load: an error passed to the callback, or a
parsed config whose `user` section (carrying optional `name` and `email`)
may itself be absent. -/
inductive GitRes where
  | err
  | ok (user : Option (Option String × Option String))
deriving DecidableEq

/-- Git results that do not crash the resolver: an error, or a config that
has a `user` section.  When the callback succeeds with a config lacking
`user`, the access `conf.user.name` throws an uncaught TypeError. -/
def GitRes.handled : GitRes → Bool
  | .ok none => false
  | _ => true

/-- `initializing.gitConfig`: on error, log and leave `conf` alone; on
success read `conf.user.name` and `conf.user.email` with `||` fallbacks.
`none` models the uncaught TypeError when the config has no `user` section. -/
def gitConfigStep (c : Conf) (r : GitRes) : Option Conf :=
  match r with
  | .err => some c
  | .ok none => none
  | .ok (some (n, e)) =>
      some { c with name := jsOr n c.name, email := jsOr e c.email }

/-- Outcome of `npmconf.load`: an error, or a config with optional
`name`, `email`, `url` and `_auth` entries. -/
inductive NpmRes where
  | err
  | ok (name email url auth : Option String)
deriving DecidableEq

/-- `initializing.npmConfig`: on error, log and leave `conf` alone; on
success merge `name`/`email`/`url`/`_auth` with `||` fallbacks. -/
def npmConfigStep (c : Conf) (r : NpmRes) : Conf :=
  match r with
  | .err => c
  | .ok n e u a =>
      { c with name := jsOr n c.name, email := jsOr e c.email,
               url := jsOr u c.url, npmKey := jsOr a c.npmKey }

/-- The `author` field of a manifest JSON: either a string or an object with
optional `name`, `email`, `url` members. -/
inductive JAuthor where
  | jstr (s : String)
  | jobj (name email url : Option String)
deriving DecidableEq

/-- The `repository` field of a manifest JSON, with an optional `url`. -/
structure JRepo where
  url : Option String
deriving DecidableEq

/-- The fields of an existing `package.json` that `initializing.packageJson`
reads. -/
structure Manifest where
  author : Option JAuthor
  repository : Option JRepo
  name : Option String
  version : Option String
  main : Option String
  description : Option String
deriving DecidableEq

/-- The empty manifest `\x7b\x7d` that `readJSON` defaults to when the file is
absent. -/
def emptyManifest : Manifest :=
  { author := none, repository := none, name := none, version := none,
    main := none, description := none }

/-- The match of a repository url against the pattern `\/([^\/]+).git$`:
a slash, then a nonempty run of non-slash characters (capture group 1), then
a single character the JS dot can match — the `.` is unescaped in the
source, and without the `s` flag it matches anything but a line terminator —
then the literal `git` at the end.  The `git` literal is anchored, so the
dot's position is fixed four characters before the end; the run cannot
contain a slash, so the only (and hence leftmost) candidate is the run
ending five characters before the end, preceded by a slash. -/
def matchGitRepo (s : String) : Option String :=
  let cs := s.data
  if cs.reverse.take 3 = ['t', 'i', 'g'] then
    let anyOk := match (cs.drop (cs.length - 4)).head? with
      | some c => !isLineTerm c
      | none => false
    if anyOk then
      let pre := cs.take (cs.length - 4)
      let revMid := pre.reverse.takeWhile (fun c => c ≠ '/')
      if revMid.isEmpty then none
      else if revMid.length = pre.length then none
      else some (String.mk revMid.reverse)
    else none
  else none

/-- The value of
`json.repository && json.repository.url && json.repository.url.match(...)[1]`:
`Except.error ()` models the TypeError thrown by indexing `null` when the url
is present and truthy but does not match; a falsy link in the `&&` chain
yields that falsy value (collapsed to `none` here, which `jsOr` treats as
falsy). -/
def repoCapture (m : Manifest) : Except Unit (Option String) :=
  match m.repository with
  | none => .ok none
  | some rep =>
    match rep.url with
    | none => .ok none
    | some u =>
      if u = "" then .ok none
      else
        match matchGitRepo u with
        | none => .error ()
        | some cap => .ok (some cap)

/-- `json.author && json.author.name`: only an object author with a `name`
member contributes a (possibly falsy) value. -/
def authorNameOf : Option JAuthor → Option String
  | some (.jobj n _ _) => n
  | _ => none

/-- The body of `initializing.packageJson` applied to a parsed manifest.
Statements run in source order; when the repository-url match throws, the
`try` block is aborted and the already-made author assignments survive while
`libName`/`version`/`main`/`libDesc` are left as they were. -/
def pjWith (c : Conf) (m : Manifest) : Conf :=
  let c1 := { c with name := jsOr (authorNameOf m.author) c.name }
  let c2 := match m.author with
    | some (.jobj _ e u) => { c1 with email := jsOr e c1.email, url := jsOr u c1.url }
    | _ => c1
  match repoCapture m with
  | .error _ => c2
  | .ok cap =>
    { c2 with libName := jsOr cap (jsOr m.name c2.libName),
              version := jsOrS m.version c2.version,
              main := jsOrS m.main c2.main,
              libDesc := jsOr m.description c2.libDesc }

/-- What `this.fs.readJSON(this.destinationPath('package.json'), \x7b\x7d)`
can produce: the file is absent (default `\x7b\x7d`), the file is malformed
(`readJSON` throws, caught by the surrounding `try`), or a parsed manifest. -/
inductive ReadJson where
  | missing
  | malformed
  | parsed (m : Manifest)
deriving DecidableEq

/-- `initializing.packageJson` with its `try`/`catch`: a malformed file
throws before any assignment, so `conf` is returned unchanged (the error is
only logged). -/
def packageJsonStep (c : Conf) (r : ReadJson) : Conf :=
  match r with
  | .malformed => c
  | .missing => pjWith c emptyManifest
  | .parsed m => pjWith c m

/-- The whole `initializing` phase (the Context Resolver), in source order:
defaults, `dir`, `gitConfig`, `npmConfig`, `packageJson`.  `none` models an
uncaught exception escaping the phase. -/
def resolve (destPath : String) (g : GitRes) (n : NpmRes) (r : ReadJson) :
    Option Conf :=
  (dirStep initialConf destPath).bind fun c1 =>
    (gitConfigStep c1 g).map fun c2 =>
      packageJsonStep (npmConfigStep c2 n) r

example : matchLastSeg "/home/me/mylib" = some "mylib" := by decide
example : matchLastSeg "/home/me/mylib/" = some "mylib/" := by decide
example : matchLastSeg "/" = none := by decide
example : matchGitRepo "https://github.com/OADA/oada-lib.git" = some "oada-lib" := by decide
example : matchGitRepo "nogit" = none := by decide
example : matchGitRepo "http://x/a" = none := by decide
example : matchGitRepo "a/b\ngit" = none := by decide
example : matchGitRepo "a/bXgit" = some "b" := by decide

/-! ### Lemmas about the Context Resolver -/

lemma segFrom_ne_empty (rest tr : List Char) (seg : String)
    (h : segFrom rest tr = some seg) : seg ≠ "" := by
  unfold segFrom at h
  split at h
  · exact absurd h (by simp)
  · split at h
    · rw [Option.some.injEq] at h
      subst h
      simp [String.ext_iff]
    · exact absurd h (by simp)

lemma matchLastSeg_ne_empty {s seg : String} (h : matchLastSeg s = some seg) :
    seg ≠ "" := by
  unfold matchLastSeg at h
  split at h <;> exact segFrom_ne_empty _ _ _ h

lemma gitConfigStep_isSome (c : Conf) (g : GitRes) (hg : g.handled = true) :
    ∃ c2, gitConfigStep c g = some c2 := by
  cases g with
  | err => exact ⟨c, rfl⟩
  | ok u =>
    cases u with
    | none => simp [GitRes.handled] at hg
    | some p =>
      obtain ⟨n, e⟩ := p
      exact ⟨_, rfl⟩

/-- Characterization of a completed resolver run: when the destination path
matches and the git step does not crash, the result is the manifest step
applied after the npm step. -/
lemma resolve_eq (d seg : String) (g : GitRes) (n : NpmRes) (r : ReadJson)
    (c2 : Conf) (hseg : matchLastSeg d = some seg)
    (hg : gitConfigStep
      { initialConf with libName := jsOr (some seg) initialConf.libName } g
        = some c2) :
    resolve d g n r = some (packageJsonStep (npmConfigStep c2 n) r) := by
  simp [resolve, dirStep, hseg, hg]

/-- Claim C4 (amended): the anticipated failure of each configuration source
(git callback error, npm callback error, absent or malformed manifest)
is logged, never fatal, and only leaves the affected fields un-updated, so
resolution completes with the surviving defaults (`main = "index.js"`,
`version = "0.0.0"`).  However, *within* the manifest source, a repository
url that fails the `.git` pattern throws mid-block: the throw is caught, but
it also leaves the *unrelated* manifest fields `libName`, `version`, `main`
and `description` un-updated (the author fields, assigned earlier, survive).
A git config that loads without a `user` section is outside the anticipated
failures and crashes the resolver. -/
theorem c4_resolver_degrades :
    (∀ (d : String) (g : GitRes) (n : NpmRes) (r : ReadJson),
        (matchLastSeg d).isSome = true → g.handled = true →
        (resolve d g n r).isSome = true)
  ∧ (∀ d seg : String, matchLastSeg d = some seg →
        resolve d .err .err .malformed = some { initialConf with libName := some seg })
  ∧ (∀ (c : Conf) (m : Manifest), repoCapture m = .error () →
        (pjWith c m).libName = c.libName ∧ (pjWith c m).version = c.version ∧
        (pjWith c m).main = c.main ∧ (pjWith c m).libDesc = c.libDesc) := by
  refine ⟨?_, ?_, ?_⟩
  · intro d g n r hd hg
    obtain ⟨seg, hseg⟩ := Option.isSome_iff_exists.mp hd
    obtain ⟨c2, hc2⟩ := gitConfigStep_isSome
      { initialConf with libName := jsOr (some seg) initialConf.libName } g hg
    rw [resolve_eq d seg g n r c2 hseg hc2]
    rfl
  · intro d seg h
    have hne := matchLastSeg_ne_empty h
    simp [resolve, dirStep, h, gitConfigStep, npmConfigStep, packageJsonStep,
      jsOr, hne]
  · intro c m h
    rcases hma : m.author with _ | a
    · simp [pjWith, h, hma]
    · cases a <;> simp [pjWith, h, hma]

/-- Claim C4 counterexample: with git and npm both erroring and a manifest
`\x7b repository: \x7b url: "nogit" \x7d, version: "1.2.3" \x7d`, the
repository-url match throws (caught and logged), and the *unrelated* field
`version` is left at its default `0.0.0` instead of being updated to the
manifest's `1.2.3` — contradicting "no unrelated field is lost". -/
theorem c4_counterexample :
    (resolve "/tmp/mylib" GitRes.err NpmRes.err
        (ReadJson.parsed
          { author := none, repository := some ⟨some "nogit"⟩, name := none,
            version := some "1.2.3", main := none, description := none })).map
        Conf.version = some "0.0.0"
  ∧ ¬ ((resolve "/tmp/mylib" GitRes.err NpmRes.err
        (ReadJson.parsed
          { author := none, repository := some ⟨some "nogit"⟩, name := none,
            version := some "1.2.3", main := none, description := none })).map
        Conf.version = some "1.2.3") := by
  decide

/-- Witness for `c4_resolver_degrades` at concrete inputs. -/
theorem c4_witness :
    (resolve "/a/b" GitRes.err NpmRes.err ReadJson.malformed).isSome = true
  ∧ resolve "/a/b" GitRes.err NpmRes.err ReadJson.malformed
      = some { initialConf with libName := some "b" }
  ∧ ((pjWith initialConf
        { author := none, repository := some ⟨some "x"⟩, name := none,
          version := none, main := none, description := none }).libName
          = initialConf.libName
    ∧ (pjWith initialConf
        { author := none, repository := some ⟨some "x"⟩, name := none,
          version := none, main := none, description := none }).version
          = initialConf.version
    ∧ (pjWith initialConf
        { author := none, repository := some ⟨some "x"⟩, name := none,
          version := none, main := none, description := none }).main
          = initialConf.main
    ∧ (pjWith initialConf
        { author := none, repository := some ⟨some "x"⟩, name := none,
          version := none, main := none, description := none }).libDesc
          = initialConf.libDesc) :=
  ⟨c4_resolver_degrades.1 "/a/b" GitRes.err NpmRes.err ReadJson.malformed
      (by decide) (by decide),
   c4_resolver_degrades.2.1 "/a/b" "b" (by decide),
   c4_resolver_degrades.2.2 initialConf _ rfl⟩

/-- Claim C8: an existing manifest whose `author` is an object carrying
(truthy) `name`, `email` and `url` determines the resolved Context's author
fields, overriding whatever the git or npm identity sources supplied earlier
in the resolution order — for any git result and npm result (the git load
must be one the code handles), and regardless of the manifest's other fields
(even a repository url whose parse throws, since the author assignments
precede it). -/
theorem c8_manifest_author_overrides
    (d : String) (g : GitRes) (n : NpmRes) (an ae au : String)
    (rep : Option JRepo) (mn mv mm md : Option String)
    (hd : (matchLastSeg d).isSome = true) (hg : g.handled = true)
    (han : an ≠ "") (hae : ae ≠ "") (hau : au ≠ "") :
    ∃ c, resolve d g n (.parsed
        { author := some (.jobj (some an) (some ae) (some au)),
          repository := rep, name := mn, version := mv, main := mm,
          description := md }) = some c
      ∧ c.name = some an ∧ c.email = some ae ∧ c.url = some au := by
  obtain ⟨seg, hseg⟩ := Option.isSome_iff_exists.mp hd
  obtain ⟨c2, hc2⟩ := gitConfigStep_isSome
    { initialConf with libName := jsOr (some seg) initialConf.libName } g hg
  have key : ∀ c : Conf,
      (pjWith c { author := some (.jobj (some an) (some ae) (some au)),
                  repository := rep, name := mn, version := mv, main := mm,
                  description := md }).name = some an
    ∧ (pjWith c { author := some (.jobj (some an) (some ae) (some au)),
                  repository := rep, name := mn, version := mv, main := mm,
                  description := md }).email = some ae
    ∧ (pjWith c { author := some (.jobj (some an) (some ae) (some au)),
                  repository := rep, name := mn, version := mv, main := mm,
                  description := md }).url = some au := by
    intro c
    cases hrc : repoCapture
        { author := some (.jobj (some an) (some ae) (some au)),
          repository := rep, name := mn, version := mv, main := mm,
          description := md } <;>
      simp [pjWith, authorNameOf, jsOr, han, hae, hau, hrc]
  rw [resolve_eq d seg g n _ c2 hseg hc2]
  exact ⟨_, rfl, (key (npmConfigStep c2 n)).1, (key (npmConfigStep c2 n)).2.1,
    (key (npmConfigStep c2 n)).2.2⟩

/-- Witness for `c8_manifest_author_overrides` at a concrete run where git
and npm supplied different identities. -/
theorem c8_witness :
    ∃ c, resolve "/home/me/mylib"
        (GitRes.ok (some (some "Git Name", some "git@example.org")))
        (NpmRes.ok (some "Npm Name") (some "npm@example.org")
          (some "https://npm.example.org") none)
        (.parsed
          { author := some (.jobj (some "Alice") (some "alice@example.com")
              (some "https://alice.example")),
            repository := none, name := none, version := none, main := none,
            description := none }) = some c
      ∧ c.name = some "Alice" ∧ c.email = some "alice@example.com"
      ∧ c.url = some "https://alice.example" :=
  c8_manifest_author_overrides "/home/me/mylib"
    (GitRes.ok (some (some "Git Name", some "git@example.org")))
    (NpmRes.ok (some "Npm Name") (some "npm@example.org")
      (some "https://npm.example.org") none)
    "Alice" "alice@example.com" "https://alice.example"
    none none none none none
    (by decide) (by decide) (by decide) (by decide) (by decide)

/-! ## The generator-local config store (Stored Preferences)

`this.config` is a key-value store persisted next to the destination
directory.  Values are strings or booleans (prompt answers and the Travis
ciphertext). -/

/-- A stored value: prompt answers are strings or booleans. -/
inductive JVal where
  | s (v : String)
  | b (v : Bool)
deriving DecidableEq, Repr

/-- The store, as a finite partial map. -/
def Store := String → Option JVal

/-- `this.config.set(k, v)`. -/
def storeSet (st : Store) (k : String) (v : JVal) : Store :=
  fun p => if p = k then some v else st p

/-! ## The Secret Provisioner (`prompting.genNpmKey`, src/app/index.js lines
226-273, part_000 lines 193-242) -/

/-- One byte of UTF-8 output, as `Nat` values below 256: the encoding of a
Unicode scalar value `n`. -/
def utf8Bytes (n : Nat) : List Nat :=
  if n < 0x80 then [n]
  else if n < 0x800 then [0xC0 + n / 64, 0x80 + n % 64]
  else if n < 0x10000 then [0xE0 + n / 4096, 0x80 + n / 64 % 64, 0x80 + n % 64]
  else [0xF0 + n / 262144, 0x80 + n / 4096 % 64, 0x80 + n / 64 % 64,
        0x80 + n % 64]

/-- The UTF-8 bytes of a string — what `new Buffer(str)` holds in Node. -/
def strBytes (s : String) : List Nat :=
  s.data.foldr (fun c acc => utf8Bytes c.toNat ++ acc) []

/-- The standard base64 alphabet. -/
def base64Alphabet : List Char :=
  ['A', 'B', 'C', 'D', 'E', 'F', 'G', 'H', 'I', 'J', 'K', 'L', 'M',
   'N', 'O', 'P', 'Q', 'R', 'S', 'T', 'U', 'V', 'W', 'X', 'Y', 'Z',
   'a', 'b', 'c', 'd', 'e', 'f', 'g', 'h', 'i', 'j', 'k', 'l', 'm',
   'n', 'o', 'p', 'q', 'r', 's', 't', 'u', 'v', 'w', 'x', 'y', 'z',
   '0', '1', '2', '3', '4', '5', '6', '7', '8', '9', '+', '/']

/-- The base64 digit for a 6-bit value. -/
def b64char (n : Nat) : Char := base64Alphabet.getD n 'A'

/-- Base64-encode a byte list, three bytes to four digits, `=`-padded. -/
def base64Chunks : List Nat → List Char
  | [] => []
  | [b1] => [b64char (b1 / 4), b64char (b1 % 4 * 16), '=', '=']
  | [b1, b2] =>
    [b64char (b1 / 4), b64char (b1 % 4 * 16 + b2 / 16), b64char (b2 % 16 * 4),
     '=']
  | b1 :: b2 :: b3 :: rest =>
    b64char (b1 / 4) :: b64char (b1 % 4 * 16 + b2 / 16) ::
      b64char (b2 % 16 * 4 + b3 / 64) :: b64char (b3 % 64) ::
        base64Chunks rest

/-- `(new Buffer(str)).toString('base64')`. -/
def base64String (s : String) : String := String.mk (base64Chunks (strBytes s))

/-- The `filter` of the `npmApiKey` prompt:
`str.indexOf(':') === -1 ? str : (new Buffer(str)).toString('base64')` —
a credential containing a colon (`username:password`) is base64-encoded,
any other string is passed through unchanged. -/
def npmKeyFilter (s : String) : String :=
  if s.data.any (fun c => c = ':') then base64String s else s

example : npmKeyFilter "user:pass" = "dXNlcjpwYXNz" := by decide
example : npmKeyFilter "sometoken" = "sometoken" := by decide

/-- Outcome of the `travis-encrypt` call. -/
inductive EncOutcome where
  | err
  | ok (blob : String)
deriving DecidableEq

/-- The completion callback of `prompting.genNpmKey`: if the (already
filtered) `npmApiKey` answer is falsy (prompt skipped, or empty input),
return immediately — no encrypt call, no store write.  Otherwise call
`encrypt('OADA/' + repoName, key, ...)`; on error only log, on success store
the ciphertext under `travisNpmKey`.  The second component records the
encryption request made (`none` when `encrypt` is never called). -/
def genNpmKeyStep (st : Store) (repoName : String) (npmApiKey : Option String)
    (e : EncOutcome) : Store × Option (String × String) :=
  match npmApiKey with
  | none => (st, none)
  | some k =>
    if k = "" then (st, none)
    else
      (match e with
       | .err => st
       | .ok blob => storeSet st "travisNpmKey" (JVal.s blob),
       some ("OADA/" ++ repoName, k))

/-- Claim C5: with no credential the Secret Provisioner performs no state
change and makes no encryption call; with a credential and a failing
encryption the store (hence any previously stored `travisNpmKey` ciphertext)
is untouched though the call was made; only on success is the returned
ciphertext persisted (and nothing else changes). -/
theorem c5_secret_provisioner_state :
    (∀ (st : Store) (rn : String) (e : EncOutcome),
        genNpmKeyStep st rn none e = (st, none)
      ∧ genNpmKeyStep st rn (some "") e = (st, none))
  ∧ (∀ (st : Store) (rn k : String), k ≠ "" →
        genNpmKeyStep st rn (some k) .err = (st, some ("OADA/" ++ rn, k)))
  ∧ (∀ (st : Store) (rn k blob : String), k ≠ "" →
        (genNpmKeyStep st rn (some k) (.ok blob)).1 "travisNpmKey"
            = some (JVal.s blob)
      ∧ (∀ p, p ≠ "travisNpmKey" →
          (genNpmKeyStep st rn (some k) (.ok blob)).1 p = st p)
      ∧ (genNpmKeyStep st rn (some k) (.ok blob)).2
            = some ("OADA/" ++ rn, k)) := by
  refine ⟨fun st rn e => ⟨rfl, rfl⟩, fun st rn k hk => ?_, fun st rn k blob hk => ?_⟩
  · simp [genNpmKeyStep, hk]
  · refine ⟨?_, fun p hp => ?_, ?_⟩ <;> simp [genNpmKeyStep, storeSet, hk]
    intro h
    exact absurd h hp

/-- Witness for `c5_secret_provisioner_state` at a concrete store and key. -/
theorem c5_witness :
    genNpmKeyStep (fun _ => none) "lib" none .err = (fun _ => none, none)
  ∧ genNpmKeyStep (fun _ => none) "lib" (some "tok") .err
      = (fun _ => none, some ("OADA/" ++ "lib", "tok"))
  ∧ (genNpmKeyStep (fun _ => none) "lib" (some "tok") (.ok "blob")).1
      "travisNpmKey" = some (JVal.s "blob") :=
  ⟨(c5_secret_provisioner_state.1 (fun _ => none) "lib" .err).1,
   c5_secret_provisioner_state.2.1 (fun _ => none) "lib" "tok" (by decide),
   (c5_secret_provisioner_state.2.2 (fun _ => none) "lib" "tok" "blob"
     (by decide)).1⟩

/-- Claim C6: a raw credential containing `:` is base64-encoded (over its
UTF-8 bytes, standard alphabet, padded) before reaching the encryption
service; a credential without `:` is passed through unchanged. -/
theorem c6_credential_normalization :
    (∀ s : String, s.data.any (fun c => c = ':') = true →
        npmKeyFilter s = base64String s)
  ∧ (∀ s : String, s.data.any (fun c => c = ':') = false →
        npmKeyFilter s = s) := by
  constructor <;> intro s h <;> simp [npmKeyFilter, h]

/-- Witness for `c6_credential_normalization`: a `username:password` pair is
base64-encoded (to the standard encoding of `user:pass`), a bare token is
unchanged. -/
theorem c6_witness :
    npmKeyFilter "user:pass" = base64String "user:pass"
  ∧ npmKeyFilter "sometoken" = "sometoken"
  ∧ base64String "user:pass" = "dXNlcjpwYXNz" :=
  ⟨c6_credential_normalization.1 "user:pass" (by decide),
   c6_credential_normalization.2 "sometoken" (by decide),
   by decide⟩

/-! ## Stored Preferences handling (`prompting.general` lines 204-208 and
`configuring.localStore` lines 277-283 of src/app/index.js) -/

/-- Lines 205-208: `prompt.default = stored === undefined ? prompt.default
: stored` — a stored answer is read back as the prompt's default. -/
def promptDefault (st : Store) (nm : String) (fb : JVal) : JVal :=
  match st nm with
  | some v => v
  | none => fb

/-- `configuring.localStore`: `for (var key in this.localStore)
\x7b ... this.config.set(key, this.context[key]); \x7d` — every own key of the
answer object of `prompting.general` is written to the store (for those keys
`this.context[key]` is the answer itself, since the derived context keys are
disjoint from the prompt names). -/
def localStoreStep (st : Store) (ans : List (String × JVal)) : Store :=
  ans.foldl (fun s kv => storeSet s kv.1 kv.2) st

lemma localStore_unwritten (ans : List (String × JVal)) :
    ∀ (st : Store) (k : String), (∀ v, (k, v) ∉ ans) →
      localStoreStep st ans k = st k := by
  induction ans with
  | nil => intro st k _; rfl
  | cons kv rest ih =>
    intro st k h
    obtain ⟨k', v'⟩ := kv
    have hne : k ≠ k' := by
      intro he
      subst he
      exact h v' (List.mem_cons_self _ _)
    show localStoreStep (storeSet st k' v') rest k = st k
    rw [ih (storeSet st k' v') k (fun v hv => h v (List.mem_cons_of_mem _ hv))]
    simp [storeSet, hne]

lemma localStore_written (ans : List (String × JVal)) :
    ∀ (st : Store) (k : String) (v : JVal), (ans.map Prod.fst).Nodup →
      (k, v) ∈ ans → localStoreStep st ans k = some v := by
  induction ans with
  | nil => intro st k v _ h; cases h
  | cons kv rest ih =>
    obtain ⟨k', v'⟩ := kv
    intro st k v hnd hm
    have hk' : k' ∉ rest.map Prod.fst := (List.nodup_cons.mp hnd).1
    rcases List.mem_cons.mp hm with he | hm'
    · injection he with h1 h2
      subst h1
      subst h2
      show localStoreStep (storeSet st k v) rest k = some v
      rw [localStore_unwritten rest _ k
        (fun w hw => absurd (List.mem_map_of_mem Prod.fst hw) hk')]
      simp [storeSet]
    · show localStoreStep (storeSet st k' v') rest k = some v
      exact ih (storeSet st k' v') k v (List.nodup_cons.mp hnd).2 hm'

/-- Claim C9 (amended): `configuring.localStore` writes *every*
`prompting.general` answer into Stored Preferences on every run, overwriting
entries regardless of whether they were already recorded; stored answers are
read back as the prompts' defaults on the next run (lines 204-208). -/
theorem c9_store_roundtrip :
    (∀ (st : Store) (k : String) (v fb : JVal),
        promptDefault (storeSet st k v) k fb = v)
  ∧ (∀ (st : Store) (k : String) (fb : JVal), st k = none →
        promptDefault st k fb = fb)
  ∧ (∀ (st : Store) (ans : List (String × JVal)) (k : String) (v : JVal),
        (ans.map Prod.fst).Nodup → (k, v) ∈ ans →
        localStoreStep st ans k = some v)
  ∧ (∀ (st : Store) (ans : List (String × JVal)) (k : String),
        (∀ v, (k, v) ∉ ans) → localStoreStep st ans k = st k) := by
  refine ⟨?_, ?_, ?_, ?_⟩
  · intro st k v fb
    simp [promptDefault, storeSet]
  · intro st k fb h
    simp [promptDefault, h]
  · intro st ans k v hnd hm
    exact localStore_written ans st k v hnd hm
  · intro st ans k h
    exact localStore_unwritten ans st k h

/-- The store of a previous run that already recorded a `libDesc` answer. -/
def c9Store : Store :=
  fun p => if p = "libDesc" then some (JVal.s "old") else none

/-- Claim C9 counterexample: with `libDesc` already present in Stored
Preferences, a run whose `libDesc` answer is `"new"` still writes it —
the stored entry changes, contradicting "no write occurs for it". -/
theorem c9_counterexample :
    c9Store "libDesc" = some (JVal.s "old")
  ∧ localStoreStep c9Store [("libDesc", JVal.s "new")] "libDesc"
      = some (JVal.s "new")
  ∧ JVal.s "new" ≠ JVal.s "old" :=
  ⟨rfl, rfl, by decide⟩

/-- Witness for `c9_store_roundtrip` at concrete stores and answers. -/
theorem c9_witness :
    promptDefault (storeSet (fun _ => none) "promises" (JVal.b true))
      "promises" (JVal.b false) = JVal.b true
  ∧ promptDefault (fun _ => none) "promises" (JVal.b false) = JVal.b false
  ∧ localStoreStep (fun _ => none)
      [("libDesc", JVal.s "d"), ("gulpfile", JVal.b false)] "libDesc"
      = some (JVal.s "d")
  ∧ localStoreStep (fun _ => none) [("libDesc", JVal.s "d")] "promises"
      = (fun _ => none : Store) "promises" :=
  ⟨c9_store_roundtrip.1 (fun _ => none) "promises" (JVal.b true) (JVal.b false),
   c9_store_roundtrip.2.1 (fun _ => none) "promises" (JVal.b false) rfl,
   c9_store_roundtrip.2.2.1 (fun _ => none)
     [("libDesc", JVal.s "d"), ("gulpfile", JVal.b false)] "libDesc"
     (JVal.s "d") (by decide) (by decide),
   c9_store_roundtrip.2.2.2 (fun _ => none) [("libDesc", JVal.s "d")]
     "promises" (by intro v hv; simp at hv)⟩

/-! ## Feature flags and the Dependency Installer (`install`,
src/app/index.js lines 439-503) -/

/-- The boolean feature flags of the finalized context. -/
structure Flags where
  gulpfile : Bool
  browser : Bool
  promises : Bool
deriving DecidableEq

/-- Whether an `npmInstall` call is tagged `\x7b save: true \x7d` (runtime) or
`\x7b saveDev: true \x7d` (development). -/
inductive DepKind where
  | runtime
  | dev
deriving DecidableEq

/-- One `this.npmInstall(pkgs, kind)` invocation. -/
structure Invocation where
  pkgs : List String
  kind : DepKind
deriving DecidableEq

/-- The `install` phase of src/app/index.js, in listed order: `promises`
(bluebird as a runtime dependency, only when the flag is set), `istanbul`,
`mocha`, `chai` (plus `chai-as-promised` when the `promises` flag is set),
`jshint`, `jscs`, `precommit` (the hooks-directory creation has no effect on
the invocation list, its error is only logged), `gulp` and `karma` (each
gated by its flag). -/
def installInvocations (f : Flags) : List Invocation :=
  (if f.promises then [⟨["bluebird"], .runtime⟩] else [])
  ++ [⟨["istanbul"], .dev⟩, ⟨["mocha"], .dev⟩, ⟨["chai"], .dev⟩]
  ++ (if f.promises then [⟨["chai-as-promised"], .dev⟩] else [])
  ++ [⟨["jshint", "jshint-stylish"], .dev⟩, ⟨["jscs"], .dev⟩,
      ⟨["pre-commit"], .dev⟩]
  ++ (if f.gulpfile then [⟨["gulp", "gulp-jshint", "gulp-jscs"], .dev⟩] else [])
  ++ (if f.browser then
        [⟨["karma", "yargs", "karma-browserify", "browserify-istanbul",
           "brfs", "karma-coverage@0.2.6", "karma-mocha",
           "karma-mocha-reporter", "karma-phantomjs-launcher",
           "karma-phantomjs-shim"], .dev⟩]
      else [])

/-- Claim C7: with `promises = true` the install invocations include
bluebird as a runtime dependency and chai-as-promised as a development
dependency; with `promises = false` neither package appears in any
invocation — for every setting of the other flags. -/
theorem c7_promises_dependencies :
    ∀ g b : Bool,
      ((∃ i ∈ installInvocations ⟨g, b, true⟩,
          "bluebird" ∈ i.pkgs ∧ i.kind = .runtime)
        ∧ (∃ i ∈ installInvocations ⟨g, b, true⟩,
            "chai-as-promised" ∈ i.pkgs ∧ i.kind = .dev))
      ∧ (∀ i ∈ installInvocations ⟨g, b, false⟩,
          "bluebird" ∉ i.pkgs ∧ "chai-as-promised" ∉ i.pkgs) := by
  decide

/-- Witness for `c7_promises_dependencies` at a concrete flag setting. -/
theorem c7_witness :
    (∃ i ∈ installInvocations ⟨false, false, true⟩,
        "bluebird" ∈ i.pkgs ∧ i.kind = .runtime)
  ∧ (∀ i ∈ installInvocations ⟨false, false, false⟩,
        "bluebird" ∉ i.pkgs ∧ "chai-as-promised" ∉ i.pkgs) :=
  ⟨(c7_promises_dependencies false false).1.1,
   (c7_promises_dependencies false false).2⟩

/-! ## The author record serialization (`prompting.author`, src/app/index.js
lines 139-157; part_000 lines 177-188) -/

/-- Lower-case hexadecimal digit. -/
def hexDigit (n : Nat) : Char :=
  if n < 10 then Char.ofNat (48 + n) else Char.ofNat (87 + n)

/-- The escaping `JSON.stringify` applies inside a string literal. -/
def jsonEscChar (c : Char) : List Char :=
  if c = '"' then ['\\', '"']
  else if c = '\\' then ['\\', '\\']
  else if c = '\n' then ['\\', 'n']
  else if c = '\r' then ['\\', 'r']
  else if c = '\t' then ['\\', 't']
  else if c.toNat = 8 then ['\\', 'b']
  else if c.toNat = 12 then ['\\', 'f']
  else if c.toNat < 32 then
    ['\\', 'u', '0', '0', hexDigit (c.toNat / 16), hexDigit (c.toNat % 16)]
  else [c]

/-- A JSON string literal body. -/
def jsonEsc (s : String) : String :=
  String.mk (s.data.foldr (fun c acc => jsonEscChar c ++ acc) [])

/-- `JSON.stringify` of a flat object of string-valued members with indent 2:
members whose value is `undefined` (`none`) are omitted entirely. -/
def stringifyAuthorFields (fields : List (String × Option String)) : String :=
  match fields.filterMap (fun p => p.2.map (fun v => (p.1, v))) with
  | [] => "\x7b\x7d"
  | present =>
    "\x7b\n"
      ++ String.intercalate ",\n"
          (present.map (fun p =>
            "  \"" ++ jsonEsc p.1 ++ "\": \"" ++ jsonEsc p.2 ++ "\""))
      ++ "\n\x7d"

/-- `.replace` of every newline by a newline plus two spaces (the global
newline replace applied to the stringified record). -/
def indentNewlines (s : String) : String :=
  String.mk (s.data.foldr
    (fun c acc => if c = '\n' then '\n' :: ' ' :: ' ' :: acc else c :: acc) [])

/-- `context.authorJSON`: `JSON.stringify(\x7b name: ans.authorName, email:
ans.authorEmail, url: ans.authorUrl || undefined \x7d, null, 2)` followed by
the newline-indent replace.  A falsy (empty or absent) url answer becomes
`undefined` before serialization. -/
def authorJSON (nm em : String) (url : Option String) : String :=
  indentNewlines (stringifyAuthorFields
    [("name", some nm), ("email", some em),
     ("url", match url with
             | some u => if u = "" then none else some u
             | none => none)])

/-- Does `pat` occur as a prefix of `s`? -/
def containsAt : List Char → List Char → Bool
  | [], _ => true
  | _ :: _, [] => false
  | a :: as, b :: bs => (a = b) && containsAt as bs

/-- Does `pat` occur contiguously anywhere in `s`? -/
def containsList (pat : List Char) : List Char → Bool
  | [] => containsAt pat []
  | b :: rest => containsAt pat (b :: rest) || containsList pat rest

/-- Substring test (used to state presence of the `"url"` key). -/
def strContains (s pat : String) : Bool := containsList pat.data s.data

example : authorJSON "A" "e" none
    = "\x7b\n    \"name\": \"A\",\n    \"email\": \"e\"\n  \x7d" := by decide

/-- Claim C10: the serialized author record omits the `url` key entirely
when the url answer is empty or absent (the falsy url is mapped to
`undefined`, which `JSON.stringify` skips); with a non-empty url the key is
present with that value. -/
theorem c10_authorJSON_url_key :
    (∀ nm em : String, authorJSON nm em (some "") = authorJSON nm em none)
  ∧ (∀ nm em : String, authorJSON nm em none
      = indentNewlines (stringifyAuthorFields
          [("name", some nm), ("email", some em)]))
  ∧ (∀ nm em u : String, u ≠ "" →
      authorJSON nm em (some u)
        = indentNewlines (stringifyAuthorFields
            [("name", some nm), ("email", some em), ("url", some u)]))
  ∧ strContains (authorJSON "Ann" "a@b.c" (some "https://ann.example"))
      "\"url\"" = true
  ∧ strContains (authorJSON "Ann" "a@b.c" none) "\"url\"" = false
  ∧ strContains (authorJSON "Ann" "a@b.c" (some "")) "\"url\"" = false := by
  refine ⟨fun nm em => rfl, fun nm em => rfl, fun nm em u hu => ?_,
    by decide, by decide, by decide⟩
  simp [authorJSON, hu]

/-- Witness for `c10_authorJSON_url_key` at a concrete non-empty url. -/
theorem c10_witness :
    authorJSON "Ann" "a@b.c" (some "x")
      = indentNewlines (stringifyAuthorFields
          [("name", some "Ann"), ("email", some "a@b.c"), ("url", some "x")]) :=
  c10_authorJSON_url_key.2.2.1 "Ann" "a@b.c" "x" (by decide)

/-! ## The Template Materializer (`configuring` and `writing` phases)

Each template write is an entry (template identifier, destination path,
optional guard path).  A `guard` of `none` models an unconditional
`fs.copy`/`fs.copyTpl`; `guard = some p` models the `if (this.fs.exists(p))
\x7b return; \x7d` check (in `writing.test` of src/app/index.js the guard path
of `test/setup.js` is the *test file*, not the setup file itself).
Rendered content is abstracted by a function `ρ` from template identifier to
rendered text (the context is fixed for a run); `fs.copy` and `fs.copyTpl`
differ only in what `ρ` yields, and the merged `test/.jshintrc` JSON gets
its own identifier. -/

/-- A destination filesystem: path to content. -/
def FS := String → Option String

/-- One template-catalog entry. -/
structure Entry where
  template : String
  dest : String
  guard : Option String
deriving DecidableEq

/-- Perform one entry against the filesystem. -/
def applyEntry (ρ : String → String) (fs : FS) (e : Entry) : FS :=
  match e.guard with
  | none => fun p => if p = e.dest then some (ρ e.template) else fs p
  | some g =>
    if (fs g).isSome then fs
    else fun p => if p = e.dest then some (ρ e.template) else fs p

/-- Run a catalog in order. -/
def materialize (ρ : String → String) (entries : List Entry) (fs : FS) : FS :=
  entries.foldl (applyEntry ρ) fs

/-- The `configuring` phase of src/app/index.js in listed order (lines
276-387): license, notice, editorconfig, ack, jshint, jscs, gulp (gated),
karma (gated), mocha, istanbul, npm, git, travis — all unconditional. -/
def configEntries (gulpfile browser : Bool) : List Entry :=
  [⟨"_LICENSE", "LICENSE", none⟩,
   ⟨"_NOTICE", "NOTICE", none⟩,
   ⟨"editorconfig", ".editorconfig", none⟩,
   ⟨"ackrc", ".ackrc", none⟩,
   ⟨"jshintrc", ".jshintrc", none⟩,
   ⟨"jshintignore", ".jshintignore", none⟩,
   ⟨"jscsrc", ".jscsrc", none⟩]
  ++ (if gulpfile then [⟨"_gulpfile.js", "gulpfile.js", none⟩] else [])
  ++ (if browser then [⟨"_karma.conf.js", "karma.conf.js", none⟩] else [])
  ++ [⟨"test/mocha.opts", "test/mocha.opts", none⟩,
      ⟨"merged:jshintrc+jshintrc-mocha", "test/.jshintrc", none⟩,
      ⟨"istanbul.yml", ".istanbul.yml", none⟩,
      ⟨"_package.json", "package.json", none⟩,
      ⟨"gitignore", ".gitignore", none⟩,
      ⟨"travis.yml", ".travis.yml", none⟩]

/-- The `writing` phase of src/app/index.js in listed order (lines 389-437):
readme, authors, main and the test pair are all guarded by an existence
check.  `writing.test` checks the *test file* once and, when it is absent,
writes both the test file and `test/setup.js` (the latter overwriting any
existing setup file).  The sequential model would otherwise evaluate the
setup entry's guard only after the test entry has just created the guard
path, so the setup entry is placed before the test entry; this is equivalent
to the source's single shared check because the setup write never creates
the guard path (`test/<pkg>.test.js` ends in `.test.js` and so never equals
`test/setup.js`). -/
def writingEntries (mainName pkg : String) : List Entry :=
  [⟨"_README.md", "README.md", some "README.md"⟩,
   ⟨"_AUTHORS", "AUTHORS", some "AUTHORS"⟩,
   ⟨"index.js", mainName, some mainName⟩,
   ⟨"test/setup.js", "test/setup.js", some ("test/" ++ pkg ++ ".test.js")⟩,
   ⟨"test/test.js", "test/" ++ pkg ++ ".test.js",
     some ("test/" ++ pkg ++ ".test.js")⟩]

/-- The whole template catalog of src/app/index.js (the `install` phase
writes no templates). -/
def appCatalog (f : Flags) (mainName pkg : String) : List Entry :=
  configEntries f.gulpfile f.browser ++ writingEntries mainName pkg

/-- The template catalog of the unnamed variant (part_000, `configuring`
lines 245-327 then `writing` lines 329-345): every entry, including
`_README.md`, `_AUTHORS`, the main file and the test file, is written
unconditionally. -/
def unnamedCatalog (mainName pkg : String) : List Entry :=
  [⟨"_LICENSE", "LICENSE", none⟩,
   ⟨"_AUTHORS", "AUTHORS", none⟩,
   ⟨"_NOTICE", "NOTICE", none⟩,
   ⟨"_README.md", "README.md", none⟩,
   ⟨"editorconfig", ".editorconfig", none⟩,
   ⟨"jshintrc", ".jshintrc", none⟩,
   ⟨"jshintignore", ".jshintignore", none⟩,
   ⟨"jscsrc", ".jscsrc", none⟩,
   ⟨"test/mocha.opts", "test/mocha.opts", none⟩,
   ⟨"merged:jshintrc+jshintrc-mocha", "test/.jshintrc", none⟩,
   ⟨"_package.json", "package.json", none⟩,
   ⟨"gitignore", ".gitignore", none⟩,
   ⟨"travis.yml", ".travis.yml", none⟩,
   ⟨"index.js", mainName, none⟩,
   ⟨"test/test.js", "test/" ++ pkg ++ ".test.js", none⟩]

lemma applyEntry_other (ρ : String → String) (fs : FS) (e : Entry) (p : String)
    (hp : p ≠ e.dest) : applyEntry ρ fs e p = fs p := by
  rcases hguard : e.guard with _ | g
  · simp [applyEntry, hguard, hp]
  · simp only [applyEntry, hguard]
    split
    · rfl
    · simp [hp]

lemma applyEntry_keeps (ρ : String → String) (fs : FS) (e : Entry)
    (target : String) (c : String) (h : fs target = some c)
    (he : e.dest ≠ target ∨ e.guard = some e.dest) :
    applyEntry ρ fs e target = some c := by
  rcases he with hne | hg
  · rw [applyEntry_other ρ fs e target (Ne.symm hne)]
    exact h
  · by_cases hde : target = e.dest
    · have hex : (fs e.dest).isSome := by
        rw [← hde, h]
        rfl
      simp [applyEntry, hg, hex, h]
    · rw [applyEntry_other ρ fs e target hde]
      exact h

/-- If every entry either writes elsewhere or is guarded by its own
destination, an existing file survives the whole catalog unchanged. -/
lemma materialize_keeps (ρ : String → String) (target : String) :
    ∀ (entries : List Entry) (fs : FS) (c : String),
      fs target = some c →
      (∀ e ∈ entries, e.dest ≠ target ∨ e.guard = some e.dest) →
      materialize ρ entries fs target = some c := by
  intro entries
  induction entries with
  | nil => intro fs c h _; exact h
  | cons e rest ih =>
    intro fs c h hall
    show materialize ρ rest (applyEntry ρ fs e) target = some c
    exact ih (applyEntry ρ fs e) c
      (applyEntry_keeps ρ fs e target c h (hall e (List.mem_cons_self _ _)))
      (fun e' h' => hall e' (List.mem_cons_of_mem _ h'))

lemma writing_cond (mainName pkg target : String)
    (hT : "test/setup.js" ≠ target) :
    ∀ e ∈ writingEntries mainName pkg,
      e.dest ≠ target ∨ e.guard = some e.dest := by
  intro e he
  simp only [writingEntries, List.mem_cons, List.mem_singleton] at he
  rcases he with rfl | rfl | rfl | rfl | rfl | h0
  · right; rfl
  · right; rfl
  · right; rfl
  · left; exact hT
  · right; rfl
  · exact absurd h0 (List.not_mem_nil e)

lemma appCatalog_split (f : Flags) (mainName pkg : String)
    (ρ : String → String) (fs : FS) :
    materialize ρ (appCatalog f mainName pkg) fs
      = materialize ρ (writingEntries mainName pkg)
          (materialize ρ (configEntries f.gulpfile f.browser) fs) := by
  simp [appCatalog, materialize, List.foldl_append]

/-- Claim C3 (amended): in src/app/index.js, an existing `README.md`
survives a re-run of the Template Materializer with its content unchanged,
while `LICENSE`, `NOTICE` and `.travis.yml` are rendered unconditionally,
overwriting whatever was there — for every flag setting, render function,
main-file name and package name.  (In the part_000 variant, `README.md` is
*also* rendered unconditionally; see the counterexample.) -/
theorem c3_readme_preserved :
    ∀ (f : Flags) (ρ : String → String) (mainName pkg : String) (fs : FS)
      (c : String), fs "README.md" = some c →
      materialize ρ (appCatalog f mainName pkg) fs "README.md" = some c
    ∧ materialize ρ (appCatalog f mainName pkg) fs "LICENSE"
        = some (ρ "_LICENSE")
    ∧ materialize ρ (appCatalog f mainName pkg) fs "NOTICE"
        = some (ρ "_NOTICE")
    ∧ materialize ρ (appCatalog f mainName pkg) fs ".travis.yml"
        = some (ρ "travis.yml") := by
  intro f ρ mainName pkg fs c h
  rw [appCatalog_split]
  have hREADME :
      materialize ρ (configEntries f.gulpfile f.browser) fs "README.md"
        = some c := by
    apply materialize_keeps ρ "README.md" _ fs c h
    cases hg : f.gulpfile <;> cases hb : f.browser <;> decide
  have hLICENSE :
      materialize ρ (configEntries f.gulpfile f.browser) fs "LICENSE"
        = some (ρ "_LICENSE") := by
    cases hg : f.gulpfile <;> cases hb : f.browser <;>
      simp [configEntries, materialize, applyEntry]
  have hNOTICE :
      materialize ρ (configEntries f.gulpfile f.browser) fs "NOTICE"
        = some (ρ "_NOTICE") := by
    cases hg : f.gulpfile <;> cases hb : f.browser <;>
      simp [configEntries, materialize, applyEntry]
  have hTRAVIS :
      materialize ρ (configEntries f.gulpfile f.browser) fs ".travis.yml"
        = some (ρ "travis.yml") := by
    cases hg : f.gulpfile <;> cases hb : f.browser <;>
      simp [configEntries, materialize, applyEntry]
  exact ⟨materialize_keeps ρ "README.md" _ _ c hREADME
          (writing_cond mainName pkg "README.md" (by decide)),
        materialize_keeps ρ "LICENSE" _ _ _ hLICENSE
          (writing_cond mainName pkg "LICENSE" (by decide)),
        materialize_keeps ρ "NOTICE" _ _ _ hNOTICE
          (writing_cond mainName pkg "NOTICE" (by decide)),
        materialize_keeps ρ ".travis.yml" _ _ _ hTRAVIS
          (writing_cond mainName pkg ".travis.yml" (by decide))⟩

/-- A destination tree that already has a `README.md` with operator content. -/
def c3FS : FS := fun p => if p = "README.md" then some "operator edits" else none

/-- Claim C3 counterexample: the unnamed variant (part_000,
`configuring.readme`) renders `README.md` unconditionally: re-running its
catalog on a tree whose `README.md` holds `"operator edits"` replaces the
content with the rendered template. -/
theorem c3_counterexample :
    c3FS "README.md" = some "operator edits"
  ∧ materialize (fun t => String.append "rendered:" t)
      (unnamedCatalog "index.js" "oada") c3FS "README.md"
      = some "rendered:_README.md" := by
  exact ⟨rfl, by decide⟩

/-- Witness for `c3_readme_preserved` at a concrete run. -/
theorem c3_witness :
    materialize (fun t => String.append "rendered:" t)
      (appCatalog ⟨false, true, true⟩ "index.js" "oada") c3FS "README.md"
      = some "operator edits"
  ∧ materialize (fun t => String.append "rendered:" t)
      (appCatalog ⟨false, true, true⟩ "index.js" "oada") c3FS "LICENSE"
      = some "rendered:_LICENSE"
  ∧ materialize (fun t => String.append "rendered:" t)
      (appCatalog ⟨false, true, true⟩ "index.js" "oada") c3FS "NOTICE"
      = some "rendered:_NOTICE"
  ∧ materialize (fun t => String.append "rendered:" t)
      (appCatalog ⟨false, true, true⟩ "index.js" "oada") c3FS ".travis.yml"
      = some "rendered:travis.yml" :=
  c3_readme_preserved ⟨false, true, true⟩ (fun t => String.append "rendered:" t)
    "index.js" "oada" c3FS "operator edits" rfl

end GenOada
